import Mathlib

/-!
# Verification of the Smart Access behavioral anomaly engine

Shallow embedding of the core of `app/smart_access/routes.py` (and the
relevant contract of `app/embedding.py`): event normalization, summary
encoding, baseline window maintenance, anomaly scoring (centroid + cosine
similarity), decision recording, the access decision service, and the
runtime settings update.  Machine floating-point arithmetic is modelled
over the reals; float epoch timestamps are modelled at integer-second
granularity (all the handlers do with them is order comparison against
whole-second cutoffs and UTC-day bucketing).
External collaborators (the embedding service, the vector store, the
transport context, the system clock, uuid generation) are modelled as an
explicit environment value threaded through each request.
-/

open scoped Classical

namespace SmartAccess

/-- Behavioral embedding vectors (numpy float arrays of fixed dimension),
modelled as real-valued tuples. -/
abbrev Vec (n : ℕ) : Type := Fin n → ℝ

/-- Dot product `np.dot(a, b)`. -/
noncomputable def dotp {n : ℕ} (a b : Vec n) : ℝ := ∑ i, a i * b i

/-- Euclidean norm `np.linalg.norm(a)`. -/
noncomputable def norm2 {n : ℕ} (a : Vec n) : ℝ := Real.sqrt (dotp a a)

/-- `cosine(a, b)` from `routes.py`: returns `0.0` when either norm is
zero, else the dot product divided by the product of the norms. -/
noncomputable def cosine {n : ℕ} (a b : Vec n) : ℝ :=
  if norm2 a = 0 ∨ norm2 b = 0 then 0
  else dotp a b / (norm2 a * norm2 b)

/-- `np.mean(np.stack(vs, axis=0), axis=0)`: the elementwise arithmetic
mean of a list of vectors. -/
noncomputable def centroid {n : ℕ} (vs : List (Vec n)) : Vec n :=
  fun i => (vs.map (fun v => v i)).sum / (vs.length : ℝ)

theorem dotp_self_nonneg {n : ℕ} (v : Vec n) : 0 ≤ dotp v v :=
  Finset.sum_nonneg (fun i _ => mul_self_nonneg (v i))

theorem dotp_self_pos {n : ℕ} (v : Vec n) (hv : v ≠ 0) : 0 < dotp v v := by
  have hex : ∃ i, v i ≠ 0 := by
    by_contra h
    push_neg at h
    exact hv (funext (fun i => h i))
  obtain ⟨i, hi⟩ := hex
  exact Finset.sum_pos' (fun j _ => mul_self_nonneg (v j))
    ⟨i, Finset.mem_univ i, mul_self_pos.mpr hi⟩

theorem norm2_ne_zero {n : ℕ} (v : Vec n) (hv : v ≠ 0) : norm2 v ≠ 0 := by
  have h := dotp_self_pos v hv
  exact ne_of_gt (Real.sqrt_pos.mpr h)

theorem centroid_singleton {n : ℕ} (v : Vec n) : centroid [v] = v := by
  funext i
  simp [centroid]

/-- C7: `cosine` returns the dot product over the product of the norms,
except that it returns exactly `0` when either operand has zero norm; and
for a nonzero vector `v`, the cosine of `v` against the centroid of a
baseline whose sole member is `v` equals `1` (exactly, in the real-number
model of float arithmetic). -/
theorem cosine_spec_and_self_baseline {n : ℕ} (a b v : Vec n) :
    (norm2 a = 0 ∨ norm2 b = 0 → cosine a b = 0) ∧
    (norm2 a ≠ 0 → norm2 b ≠ 0 → cosine a b = dotp a b / (norm2 a * norm2 b)) ∧
    (v ≠ 0 → cosine v (centroid [v]) = 1) := by
  refine ⟨fun h => by simp [cosine, h], fun ha hb => ?_, fun hv => ?_⟩
  · rw [cosine, if_neg]
    push_neg
    exact ⟨ha, hb⟩
  · rw [centroid_singleton]
    have hd : 0 < dotp v v := dotp_self_pos v hv
    have hn : norm2 v ≠ 0 := norm2_ne_zero v hv
    rw [cosine, if_neg (by push_neg; exact ⟨hn, hn⟩)]
    rw [norm2, Real.mul_self_sqrt hd.le]
    exact div_self hd.ne'

/-- A concrete one-dimensional nonzero vector. -/
def vOne : Vec 1 := fun _ => 1

theorem vOne_ne_zero : vOne ≠ 0 := by
  intro h
  have h0 : vOne 0 = 0 := congrFun h 0
  simp [vOne] at h0

/-- Witness for C7 at the concrete vector `vOne`. -/
theorem cosine_spec_and_self_baseline_witness :
    vOne ≠ 0 ∧ cosine vOne (centroid [vOne]) = 1 :=
  ⟨vOne_ne_zero,
    (cosine_spec_and_self_baseline vOne vOne vOne).2.2 vOne_ne_zero⟩

/-! ## Decision Recorder: `upsert_event`

`upsert_event` copies the caller payload, pops the `'id'` key (to avoid
colliding with the store's point-ID field), and stores the vector under a
fresh `uuid4` identifier.  Payload dictionaries are modelled as
association lists with unique keys; popping a key is filtering out every
entry with that key (which agrees with `dict.pop` on unique keys). -/

/-- A record as persisted by the vector store: a point identifier chosen
by `upsert_event` plus the caller-visible payload. -/
structure StoredPoint (α : Type) where
  pointId : String
  payload : List (String × α)

/-- The payload actually persisted by `upsert_event`: the caller payload
with every `'id'` entry removed. -/
def upsertPayload {α : Type} (payload : List (String × α)) : List (String × α) :=
  payload.filter (fun kv => !(kv.1 == "id"))

/-- `upsert_event`: strips `'id'` from the payload and assigns the freshly
generated identifier (`str(uuid.uuid4())`, supplied by the environment)
as the point ID. -/
def upsertEventRecord {α : Type} (freshId : String) (payload : List (String × α)) :
    StoredPoint α :=
  ⟨freshId, upsertPayload payload⟩

theorem lookup_upsertPayload_id {α : Type} (pl : List (String × α)) :
    (upsertPayload pl).lookup "id" = none := by
  induction pl with
  | nil => rfl
  | cons kv rest ih =>
    obtain ⟨k, v⟩ := kv
    by_cases h : k = "id"
    · have hp : (!(k == "id")) = false := by simp [h]
      rw [upsertPayload, List.filter_cons, hp]
      simp only [Bool.false_eq_true, if_false]
      exact ih
    · have hp : (!(k == "id")) = true := by simp [h]
      rw [upsertPayload, List.filter_cons, hp]
      simp only [if_true]
      have hik : ("id" == k) = false := by simp [Ne.symm h]
      rw [List.lookup, hik]
      exact ih

theorem lookup_upsertPayload_other {α : Type} (pl : List (String × α))
    (k : String) (hk : k ≠ "id") :
    (upsertPayload pl).lookup k = pl.lookup k := by
  induction pl with
  | nil => rfl
  | cons kv rest ih =>
    obtain ⟨k', v⟩ := kv
    by_cases h : k' = "id"
    · have hp : (!(k' == "id")) = false := by simp [h]
      rw [upsertPayload, List.filter_cons, hp]
      simp only [Bool.false_eq_true, if_false]
      have hkk : (k == k') = false := by simp [h, hk]
      rw [List.lookup, hkk]
      exact ih
    · have hp : (!(k' == "id")) = true := by simp [h]
      rw [upsertPayload, List.filter_cons, hp]
      simp only [if_true]
      by_cases hkk : k = k'
      · have hb : (k == k') = true := by simp [hkk]
        rw [List.lookup, List.lookup, hb]
      · have hb : (k == k') = false := by simp [hkk]
        rw [List.lookup, List.lookup, hb]
        exact ih

/-- C8: `upsert_event` strips any caller-supplied `'id'` field before
persistence (the stored payload has no `'id'` entry), assigns the fresh
identifier as the record identity, and leaves every other payload field
unchanged (lookup of any key other than `'id'` is preserved). -/
theorem upsertEventRecord_spec {α : Type} (freshId : String)
    (pl : List (String × α)) :
    (upsertEventRecord freshId pl).pointId = freshId ∧
    (upsertEventRecord freshId pl).payload.lookup "id" = none ∧
    (∀ k, k ≠ "id" →
      (upsertEventRecord freshId pl).payload.lookup k = pl.lookup k) :=
  ⟨rfl, lookup_upsertPayload_id pl,
    fun k hk => lookup_upsertPayload_other pl k hk⟩

/-- Witness for C8 at a concrete payload that contains an `'id'` field. -/
theorem upsertEventRecord_spec_witness :
    ("page" ≠ "id") ∧
    (upsertEventRecord "fresh-uuid" [("id", 7), ("page", 3)]).pointId = "fresh-uuid" ∧
    (upsertEventRecord "fresh-uuid" [("id", 7), ("page", 3)]).payload.lookup "id" = none ∧
    (upsertEventRecord "fresh-uuid" [("id", 7), ("page", 3)]).payload.lookup "page" =
      ([("id", 7), ("page", 3)] : List (String × ℕ)).lookup "page" := by
  refine ⟨by decide, (upsertEventRecord_spec "fresh-uuid" _).1,
    (upsertEventRecord_spec "fresh-uuid" _).2.1,
    (upsertEventRecord_spec "fresh-uuid" _).2.2 "page" (by decide)⟩

/-! ## Data model and environment for `collect_event` / `check_access` -/

/-- Runtime-tunable settings read by the handlers: the module globals
`THRESHOLD` and `BASELINE_DAYS` as observed by one request. -/
structure Config where
  threshold : ℝ
  baselineDays : ℕ

/-- A point persisted in the `smart_access` collection, restricted to the
payload fields the handlers read back: `employee_id`, `ts_epoch` (absent
on records that never set it, e.g. operator centroid snapshots),
`ts_iso`, `score`, `flagged`, plus the stored vector and point ID. -/
structure Point (n : ℕ) where
  pointId : String
  vector : Vec n
  employee_id : String
  ts_epoch : Option ℤ
  ts_iso : String
  score : Option ℝ
  flagged : Bool

/-- The external world as seen by one request: store availability
(`ensure_collection`), the clock (`datetime.now(timezone.utc)` as ISO
string and epoch seconds), ISO-8601 parsing (`datetime.fromisoformat`,
`none` when it raises), the transport context (request header user agent
and client host), the device-existence lookup result, the embedding
collaborator (`embed_texts`, `none` when it raises), the generated
`uuid4`, and whether the store upsert call succeeds. -/
structure Env (n : ℕ) where
  storeAvailable : Bool
  nowIso : String
  nowEpoch : ℤ
  parseIso : String → Option ℤ
  requestUA : String
  requestIp : String
  seenDeviceLookup : String → String → Bool
  embed : String → Option (Vec n)
  freshId : String
  upsertOk : Bool

/-- The raw JSON ingestion body, restricted to the fields
`collect_event` reads.  `none` models an absent key. -/
structure InEvent where
  employee_id : Option String
  page : Option String
  mouse_moves : Option ℤ
  typing_cpm : Option ℚ
  typing_burstiness : Option ℚ
  ip : Option String
  device_id : Option String
  seen_device_before : Option Bool
  user_agent : Option String
  timestamp : Option String

/-! ## Event Normalizer -/

/-- Python `str.strip()`: drop leading and trailing whitespace
(modelled over the ASCII whitespace characters). -/
def pyStrip (s : String) : String :=
  ⟨((s.data.dropWhile Char.isWhitespace).reverse.dropWhile Char.isWhitespace).reverse⟩

/-- `(event.get("employee_id") or "").strip()`. -/
def eidOf (ev : InEvent) : String := pyStrip (ev.employee_id.getD "")

/-- `ts.replace('Z', '+00:00')`. -/
def zrepl (s : String) : String :=
  String.join (s.data.map (fun c => if c = 'Z' then "+00:00" else String.singleton c))

/-- `event.get("timestamp") or datetime.now(timezone.utc).isoformat()`:
a missing or empty timestamp string is replaced by the current time. -/
def tsOf (env : Env n) (ev : InEvent) : String :=
  if ev.timestamp.getD "" = "" then env.nowIso else ev.timestamp.getD ""

/-- `event["ts_epoch"]`: epoch seconds parsed from the resolved timestamp
(after `Z` substitution); falls back to the current time's epoch seconds
when parsing raises. -/
def tsEpochOf (env : Env n) (ev : InEvent) : ℤ :=
  match env.parseIso (zrepl (tsOf env ev)) with
  | some q => q
  | none => env.nowEpoch

/-- `if not event.get("user_agent"): event["user_agent"] = request.headers.get("user-agent", "")`. -/
def uaOf (env : Env n) (ev : InEvent) : String :=
  if ev.user_agent.getD "" = "" then env.requestUA else ev.user_agent.getD ""

/-- `if not event.get("ip"): event["ip"] = request.client.host`. -/
def ipOf (env : Env n) (ev : InEvent) : String :=
  if ev.ip.getD "" = "" then env.requestIp else ev.ip.getD ""

/-- `(event.get("device_id") or '').strip()`. -/
def devIdOf (ev : InEvent) : String := pyStrip (ev.device_id.getD "")

/-- `seen_device_before(employee_id, device_id)` from `routes.py`:
`False` on an empty device id or an unavailable store, otherwise the
store existence lookup (whose own exceptions are caught to `False` and
are folded into the environment's lookup result). -/
def seenDeviceBefore (env : Env n) (eid devId : String) : Bool :=
  if devId = "" then false
  else if env.storeAvailable then env.seenDeviceLookup eid devId
  else false

/-- The resolved `seen_device_before` field: the caller value when
present, else the store lookup. -/
def seenOf (env : Env n) (ev : InEvent) : Bool :=
  match ev.seen_device_before with
  | some b => b
  | none => seenDeviceBefore env (eidOf ev) (devIdOf ev)

/-! ## Summary Encoder -/

/-- Python `str` of a boolean. -/
def pyBool (b : Bool) : String := if b then "True" else "False"

/-- `to_summary_text` applied to the normalized event dict: the fixed
field order of `routes.py`, joined with `" | "`.  Numeric JSON values are
modelled as integers/rationals rendered with `toString` (abstracting
Python's float `repr`); no claim depends on the rendered digits. -/
def toSummaryText (env : Env n) (ev : InEvent) : String :=
  String.intercalate " | "
    [ "employee_id: " ++ ev.employee_id.getD ""
    , "page: " ++ ev.page.getD ""
    , "mouse_moves: " ++ toString (ev.mouse_moves.getD 0)
    , "typing_speed_cpm: " ++ toString (ev.typing_cpm.getD 0)
    , "typing_burstiness: " ++ toString (ev.typing_burstiness.getD 0)
    , "ip: " ++ ipOf env ev
    , "device_id: " ++ ev.device_id.getD ""
    , "seen_device_before: " ++ pyBool (seenOf env ev)
    , "ua: " ++ (uaOf env ev).take 200
    , "ts: " ++ tsOf env ev ]

/-! ## Baseline Window Maintainer -/

/-- `get_employee_vectors(employee_id, days)`: `[]` when the collection
is unavailable, else every stored point for the identity whose `ts_epoch`
satisfies the `gte` range filter for the lookback cutoff
`now - days * 86400` (points without `ts_epoch` never match the range
condition).  The scroll pagination loop is exhaustive, so it returns the
full filtered list. -/
def getEmployeeVectors (env : Env n) (store : List (Point n))
    (eid : String) (days : ℤ) : List (Point n) :=
  if env.storeAvailable then
    store.filter (fun p =>
      p.employee_id == eid &&
      (match p.ts_epoch with
       | some te => decide (env.nowEpoch - days * 86400 ≤ te)
       | none => false))
  else []

/-- UTC calendar-day key of an epoch timestamp:
`datetime.fromtimestamp(te, tz=timezone.utc).strftime('%Y-%m-%d')`
distinguishes two epochs exactly when they fall in different UTC days,
i.e. when `⌊te / 86400⌋` differs. -/
def dayKey (te : ℤ) : ℤ := Int.fdiv te 86400

/-- The baseline loop body of `collect_event`: from the (2×-headroom)
fetched points, keep those with a truthy `ts_epoch` within the
`BASELINE_DAYS` lookback window. -/
def baselinePts (cfg : Config) (env : Env n) (store : List (Point n))
    (eid : String) : List (Point n) :=
  (getEmployeeVectors env store eid ((cfg.baselineDays : ℤ) * 2)).filter
    (fun p =>
      match p.ts_epoch with
      | some te =>
          !(te == 0) && decide (env.nowEpoch - (cfg.baselineDays : ℤ) * 86400 ≤ te)
      | none => false)

/-- `base_vecs`: the vectors of the baseline points, in store order. -/
def baselineVecs (cfg : Config) (env : Env n) (store : List (Point n))
    (eid : String) : List (Vec n) :=
  (baselinePts cfg env store eid).map (fun p => p.vector)

/-- `base_days`: the set of distinct UTC day keys of the baseline points. -/
def baselineDaySet (cfg : Config) (env : Env n) (store : List (Point n))
    (eid : String) : Finset ℤ :=
  ((baselinePts cfg env store eid).map (fun p => dayKey (p.ts_epoch.getD 0))).toFinset

/-! ## Anomaly Scorer -/

/-- The scoring step of `collect_event`: when the distinct-day coverage
reaches `BASELINE_DAYS` and the baseline vector list is non-empty
(Python truthiness of `base_vecs`), the score is the cosine similarity
to the centroid and the flag is `score < THRESHOLD`; otherwise
`(None, False)`. -/
noncomputable def scoreFlag (cfg : Config) (bvecs : List (Vec n))
    (dayCount : ℕ) (vec : Vec n) : Option ℝ × Bool :=
  if cfg.baselineDays ≤ dayCount ∧ bvecs.isEmpty = false then
    (some (cosine vec (centroid bvecs)),
     if cosine vec (centroid bvecs) < cfg.threshold then true else false)
  else (none, false)

/-! ## Ingestion handler: `collect_event` -/

/-- How a request can fail: a FastAPI `HTTPException` raised by
validation, or an uncaught Python exception (surfaced by the framework
as a server error). -/
inductive HErr where
  | validation : ℕ → String → HErr
  | exception : HErr

/-- The JSON response of `collect_event`. -/
structure CollectResp where
  ok : Bool
  flagged : Bool
  score : Option ℝ
  stored : Bool

/-- `collect_event`: normalize, embed, fetch and bucket the baseline,
score, persist, respond.  Returns the HTTP outcome together with the
store contents after the request.  `env.storeAvailable` is the
`ensure_collection()` result (assumed stable across the request's
re-checks); `env.upsertOk = false` models the store upsert call raising. -/
noncomputable def collectEvent (cfg : Config) (env : Env n)
    (store : List (Point n)) (ev : InEvent) :
    Except HErr CollectResp × List (Point n) :=
  if eidOf ev = "" then
    (Except.error (HErr.validation 400 "employee_id required"), store)
  else
    match env.embed (toSummaryText env ev) with
    | none => (Except.error HErr.exception, store)
    | some vec =>
      let sf := scoreFlag cfg (baselineVecs cfg env store (eidOf ev))
        (baselineDaySet cfg env store (eidOf ev)).card vec
      if env.storeAvailable then
        if env.upsertOk then
          (Except.ok ⟨true, sf.2, sf.1, true⟩,
           store ++ [⟨env.freshId, vec, eidOf ev, some (tsEpochOf env ev),
                     tsOf env ev, sf.1, sf.2⟩])
        else (Except.error HErr.exception, store)
      else (Except.ok ⟨true, false, none, false⟩, store)

/-! ## Access Decision Service: `check_access` -/

/-- The JSON response of `check_access`: the scored branch returns
`allow`, `score` and `threshold`; the fail-open branch returns `allow`
and a `reason` annotation. -/
structure CheckResp where
  employee_id : String
  allow : Bool
  score : Option ℝ
  threshold : Option ℝ
  reason : Option String

/-- `sorted(pts, key=lambda p: p.payload.get("ts_iso", ""), reverse=True)`:
a stable descending sort by the `ts_iso` string. -/
def sortByTsDesc (pts : List (Point n)) : List (Point n) :=
  List.insertionSort (fun a b => b.ts_iso ≤ a.ts_iso) pts

/-- The scan loop of `check_access`: skip records without a score; on
the first scored record answer `allow = (score >= THRESHOLD)`; if the
loop exhausts, fail open with the `"no recent score"` reason. -/
noncomputable def checkLoop (cfg : Config) (eid : String) :
    List (Point n) → CheckResp
  | [] => ⟨eid, true, none, none, some "no recent score"⟩
  | p :: rest =>
    match p.score with
    | none => checkLoop cfg eid rest
    | some s =>
        ⟨eid, if cfg.threshold ≤ s then true else false, some s,
         some cfg.threshold, none⟩

/-- `check_access(employee_id)`: fetch the identity's records in the
2-day recency window, scan them newest-first. -/
noncomputable def checkAccess (cfg : Config) (env : Env n)
    (store : List (Point n)) (eid : String) : CheckResp :=
  checkLoop cfg eid (sortByTsDesc (getEmployeeVectors env store eid 2))

/-! ## Scoring lemmas -/

theorem scoreFlag_immature (cfg : Config) (bvecs : List (Vec n))
    (dayCount : ℕ) (vec : Vec n) (h : dayCount < cfg.baselineDays) :
    scoreFlag cfg bvecs dayCount vec = (none, false) := by
  rw [scoreFlag, if_neg]
  intro hc
  exact absurd hc.1 (Nat.not_le.mpr h)

theorem scoreFlag_flag_iff (cfg : Config) (bvecs : List (Vec n))
    (dayCount : ℕ) (vec : Vec n) :
    (scoreFlag cfg bvecs dayCount vec).2 = true ↔
      ∃ s, (scoreFlag cfg bvecs dayCount vec).1 = some s ∧ s < cfg.threshold := by
  rw [scoreFlag]
  by_cases hm : cfg.baselineDays ≤ dayCount ∧ bvecs.isEmpty = false
  · rw [if_pos hm]
    by_cases hs : cosine vec (centroid bvecs) < cfg.threshold
    · simp only [if_pos hs]
      exact ⟨fun _ => ⟨cosine vec (centroid bvecs), rfl, hs⟩, fun _ => by simp⟩
    · simp only [if_neg hs]
      constructor
      · intro hfalse
        exact absurd hfalse (by simp)
      · rintro ⟨s, hs1, hs2⟩
        exact absurd (Option.some.inj hs1 ▸ hs2) hs
  · rw [if_neg hm]
    constructor
    · intro hfalse
      exact absurd hfalse (by simp)
    · rintro ⟨s, hs1, _⟩
      exact absurd hs1 (by simp)

/-! ## Claim theorems about `collect_event` -/

/-- C5: a missing or blank (whitespace-only) identity is rejected with a
400 validation error and the store is left unchanged. -/
theorem collectEvent_blank_identity (cfg : Config) (env : Env n)
    (store : List (Point n)) (ev : InEvent) (h : eidOf ev = "") :
    collectEvent cfg env store ev =
      (Except.error (HErr.validation 400 "employee_id required"), store) := by
  rw [collectEvent, if_pos h]

/-- C1: whenever the baseline spans fewer distinct UTC day keys than
`BASELINE_DAYS`, any successful `collect_event` response has a null
score and is not flagged — however many raw events sit in the window. -/
theorem collectEvent_immature_no_score (cfg : Config) (env : Env n)
    (store : List (Point n)) (ev : InEvent) (resp : CollectResp)
    (hok : (collectEvent cfg env store ev).1 = Except.ok resp)
    (hdays : (baselineDaySet cfg env store (eidOf ev)).card < cfg.baselineDays) :
    resp.score = none ∧ resp.flagged = false := by
  by_cases heid : eidOf ev = ""
  · rw [collectEvent, if_pos heid] at hok
    exact absurd hok (by simp)
  · rw [collectEvent, if_neg heid] at hok
    cases hemb : env.embed (toSummaryText env ev) with
    | none =>
      rw [hemb] at hok
      exact absurd hok (by simp)
    | some vec =>
      rw [hemb] at hok
      simp only at hok
      rw [scoreFlag_immature cfg _ _ _ hdays] at hok
      by_cases hsa : env.storeAvailable
      · by_cases hup : env.upsertOk
        · rw [if_pos hsa, if_pos hup] at hok
          obtain rfl := Except.ok.inj hok
          exact ⟨rfl, rfl⟩
        · rw [if_pos hsa, if_neg hup] at hok
          exact absurd hok (by simp)
      · rw [if_neg hsa] at hok
        obtain rfl := Except.ok.inj hok
        exact ⟨rfl, rfl⟩

/-- C2: any record that `collect_event` adds to the store is flagged
exactly when its score is non-null and below the threshold. -/
theorem collectEvent_flag_iff_persisted (cfg : Config) (env : Env n)
    (store : List (Point n)) (ev : InEvent) (p : Point n)
    (hp : p ∈ (collectEvent cfg env store ev).2)
    (hnew : p ∉ store) :
    (p.flagged = true ↔ ∃ s, p.score = some s ∧ s < cfg.threshold) := by
  by_cases heid : eidOf ev = ""
  · rw [collectEvent, if_pos heid] at hp
    exact absurd hp hnew
  · rw [collectEvent, if_neg heid] at hp
    cases hemb : env.embed (toSummaryText env ev) with
    | none =>
      rw [hemb] at hp
      exact absurd hp hnew
    | some vec =>
      rw [hemb] at hp
      simp only at hp
      by_cases hsa : env.storeAvailable
      · by_cases hup : env.upsertOk
        · rw [if_pos hsa, if_pos hup] at hp
          rcases List.mem_append.mp hp with hin | hone
          · exact absurd hin hnew
          · obtain rfl := List.mem_singleton.mp hone
            exact scoreFlag_flag_iff cfg _ _ _
        · rw [if_pos hsa, if_neg hup] at hp
          exact absurd hp hnew
      · rw [if_neg hsa] at hp
        exact absurd hp hnew

/-! ## Concrete request data for witnesses -/

/-- A concrete settings snapshot: `THRESHOLD = 0.85`, `BASELINE_DAYS = 30`. -/
noncomputable def cfgW : Config := ⟨17 / 20, 30⟩

/-- A concrete healthy environment (store up, embedding returns `vOne`,
ISO parsing rejects everything, clock at epoch `0`). -/
noncomputable def envW : Env 1 :=
  ⟨true, "2026-01-01T00:00:00+00:00", 0, fun _ => none, "agent", "127.0.0.1",
   fun _ _ => false, fun _ => some vOne, "uuid-1", true⟩

/-- A concrete valid ingestion body carrying only an identity. -/
def evE1 : InEvent :=
  ⟨some "E1", none, none, none, none, none, none, none, none, none⟩

/-- A concrete ingestion body with a whitespace-only identity. -/
def evBlank : InEvent :=
  ⟨some "   ", none, none, none, none, none, none, none, none, none⟩

/-- The record the healthy run of `collect_event` appends for `evE1`. -/
noncomputable def ptW : Point 1 :=
  ⟨"uuid-1", vOne, "E1", some 0, "2026-01-01T00:00:00+00:00", none, false⟩

/-- Witness for C5: the blank-identity request is rejected and the store
is untouched. -/
theorem collectEvent_blank_identity_witness :
    eidOf evBlank = "" ∧
    collectEvent cfgW envW [] evBlank =
      (Except.error (HErr.validation 400 "employee_id required"), []) :=
  ⟨by decide, collectEvent_blank_identity cfgW envW [] evBlank (by decide)⟩

/-- Witness for C1: an empty store has day coverage `0 < 30`, and the
response indeed carries a null score and no flag. -/
theorem collectEvent_immature_no_score_witness :
    (collectEvent cfgW envW [] evE1).1 = Except.ok ⟨true, false, none, true⟩ ∧
    (baselineDaySet cfgW envW [] (eidOf evE1)).card < cfgW.baselineDays ∧
    ((⟨true, false, none, true⟩ : CollectResp).score = none ∧
     (⟨true, false, none, true⟩ : CollectResp).flagged = false) :=
  ⟨rfl, by decide,
   collectEvent_immature_no_score cfgW envW [] evE1 ⟨true, false, none, true⟩
     rfl (by decide)⟩

/-- Witness for C2 at the record appended by the healthy run. -/
theorem collectEvent_flag_iff_persisted_witness :
    ptW ∈ (collectEvent cfgW envW [] evE1).2 ∧
    ptW ∉ ([] : List (Point 1)) ∧
    (ptW.flagged = true ↔ ∃ s, ptW.score = some s ∧ s < cfgW.threshold) :=
  ⟨List.mem_singleton.mpr rfl, by simp,
   collectEvent_flag_iff_persisted cfgW envW [] evE1 ptW
     (List.mem_singleton.mpr rfl) (by simp)⟩

/-! ## Collaborator failure behavior (C4) -/

/-- An environment whose embedding collaborator fails. -/
def envEmbedFail : Env 1 :=
  ⟨true, "2026-01-01T00:00:00+00:00", 0, fun _ => none, "agent", "127.0.0.1",
   fun _ _ => false, fun _ => none, "uuid-1", true⟩

/-- An environment whose vector store is unavailable
(`ensure_collection()` returns `False`). -/
noncomputable def envUnavail : Env 1 :=
  ⟨false, "2026-01-01T00:00:00+00:00", 0, fun _ => none, "agent", "127.0.0.1",
   fun _ _ => false, fun _ => some vOne, "uuid-1", true⟩

/-- C4 counterexample: on a valid identity with a failing embedding call,
`collect_event` does not return a degraded success — the exception
escapes the handler (there is no try/except around `embed_texts`). -/
theorem collectEvent_embed_failure_counterexample :
    eidOf evE1 ≠ "" ∧
    envEmbedFail.embed (toSummaryText envEmbedFail evE1) = none ∧
    (collectEvent cfgW envEmbedFail [] evE1).1 = Except.error HErr.exception :=
  ⟨by decide, rfl, rfl⟩

/-- C4 amended: only the store-availability check degrades gracefully.
With a valid identity: if the embedding call fails the exception
propagates and nothing is stored; if embedding succeeds but the store is
unavailable the request degrades to a success with `stored = false` and
scoring skipped; if the store upsert call itself fails the exception
propagates and nothing is stored. -/
theorem collectEvent_collaborator_failure (cfg : Config) (env : Env n)
    (store : List (Point n)) (ev : InEvent) (hvalid : eidOf ev ≠ "") :
    (env.embed (toSummaryText env ev) = none →
      collectEvent cfg env store ev = (Except.error HErr.exception, store)) ∧
    (∀ vec, env.embed (toSummaryText env ev) = some vec →
      env.storeAvailable = false →
      collectEvent cfg env store ev =
        (Except.ok ⟨true, false, none, false⟩, store)) ∧
    (∀ vec, env.embed (toSummaryText env ev) = some vec →
      env.storeAvailable = true → env.upsertOk = false →
      collectEvent cfg env store ev = (Except.error HErr.exception, store)) := by
  refine ⟨fun hemb => ?_, fun vec hemb hsa => ?_, fun vec hemb hsa hup => ?_⟩
  · rw [collectEvent, if_neg hvalid, hemb]
  · rw [collectEvent, if_neg hvalid, hemb]
    simp only [hsa, Bool.false_eq_true, if_false]
  · rw [collectEvent, if_neg hvalid, hemb]
    simp only [hsa, hup, Bool.false_eq_true, if_true, if_false]

/-- Witness for the amended C4, at a failing embedding environment and at
an unavailable-store environment. -/
theorem collectEvent_collaborator_failure_witness :
    eidOf evE1 ≠ "" ∧
    collectEvent cfgW envEmbedFail [] evE1 = (Except.error HErr.exception, []) ∧
    collectEvent cfgW envUnavail [] evE1 =
      (Except.ok ⟨true, false, none, false⟩, []) :=
  ⟨by decide,
   (collectEvent_collaborator_failure cfgW envEmbedFail [] evE1 (by decide)).1 rfl,
   (collectEvent_collaborator_failure cfgW envUnavail [] evE1 (by decide)).2.1
     vOne rfl rfl⟩

/-! ## Normalizer timestamp behavior (C6) -/

/-- A concrete ingestion body carrying an unparseable timestamp. -/
def evBadTs : InEvent :=
  ⟨some "E1", none, none, none, none, none, none, none, none,
   some "not-a-date"⟩

/-- C6 counterexample: a present but unparseable timestamp is kept
verbatim in the normalized `timestamp` field — it is not replaced by the
current ingestion time; only the derived epoch seconds fall back to the
current time. -/
theorem tsOf_unparseable_counterexample :
    envW.parseIso (zrepl (tsOf envW evBadTs)) = none ∧
    tsOf envW evBadTs = "not-a-date" ∧
    tsOf envW evBadTs ≠ envW.nowIso ∧
    tsEpochOf envW evBadTs = envW.nowEpoch :=
  ⟨rfl, rfl, by decide, rfl⟩

/-- C6 amended: normalization always yields (non-null) timestamp, epoch
and user-agent values.  A missing or empty timestamp is replaced by the
current ingestion time; a present non-empty timestamp — parseable or
not — is kept verbatim; epoch seconds are parsed from the resolved
timestamp and fall back to the current ingestion time exactly when
parsing fails; a missing or empty user agent is defaulted from the
transport context, otherwise kept. -/
theorem normalizer_fields_spec (env : Env n) (ev : InEvent) :
    (ev.timestamp.getD "" = "" → tsOf env ev = env.nowIso) ∧
    (∀ t, ev.timestamp = some t → t ≠ "" → tsOf env ev = t) ∧
    (∀ q, env.parseIso (zrepl (tsOf env ev)) = some q → tsEpochOf env ev = q) ∧
    (env.parseIso (zrepl (tsOf env ev)) = none → tsEpochOf env ev = env.nowEpoch) ∧
    (ev.user_agent.getD "" = "" → uaOf env ev = env.requestUA) ∧
    (∀ u, ev.user_agent = some u → u ≠ "" → uaOf env ev = u) := by
  refine ⟨fun h => by rw [tsOf, if_pos h],
    fun t ht hne => ?_,
    fun q hq => by rw [tsEpochOf, hq],
    fun hq => by rw [tsEpochOf, hq],
    fun h => by rw [uaOf, if_pos h],
    fun u hu hne => ?_⟩
  · rw [tsOf, ht]
    simp only [Option.getD_some]
    rw [if_neg hne]
  · rw [uaOf, hu]
    simp only [Option.getD_some]
    rw [if_neg hne]

/-- Witness for the amended C6 at the unparseable-timestamp request. -/
theorem normalizer_fields_spec_witness :
    (evBadTs.timestamp = some "not-a-date" ∧ "not-a-date" ≠ "" ∧
      tsOf envW evBadTs = "not-a-date") ∧
    (envW.parseIso (zrepl (tsOf envW evBadTs)) = none ∧
      tsEpochOf envW evBadTs = envW.nowEpoch) ∧
    (evBadTs.user_agent.getD "" = "" ∧ uaOf envW evBadTs = envW.requestUA) :=
  ⟨⟨rfl, by decide,
    (normalizer_fields_spec envW evBadTs).2.1 "not-a-date" rfl (by decide)⟩,
   ⟨rfl, (normalizer_fields_spec envW evBadTs).2.2.2.1 rfl⟩,
   ⟨rfl, (normalizer_fields_spec envW evBadTs).2.2.2.2.1 rfl⟩⟩

/-! ## The candidate never scores against itself (C10) -/

theorem baselinePts_subset (cfg : Config) (env : Env n)
    (store : List (Point n)) (eid : String) (p : Point n)
    (hp : p ∈ baselinePts cfg env store eid) : p ∈ store := by
  have h1 : p ∈ getEmployeeVectors env store eid ((cfg.baselineDays : ℤ) * 2) :=
    (List.mem_filter.mp hp).1
  rw [getEmployeeVectors] at h1
  by_cases hsa : env.storeAvailable
  · rw [if_pos hsa] at h1
    exact (List.mem_filter.mp h1).1
  · rw [if_neg hsa] at h1
    exact absurd h1 (List.not_mem_nil p)

theorem scoreFlag_score_cases (cfg : Config) (bvecs : List (Vec n))
    (dayCount : ℕ) (vec : Vec n) :
    (scoreFlag cfg bvecs dayCount vec).1 = none ∨
    (scoreFlag cfg bvecs dayCount vec).1 = some (cosine vec (centroid bvecs)) := by
  rw [scoreFlag]
  by_cases hm : cfg.baselineDays ≤ dayCount ∧ bvecs.isEmpty = false
  · rw [if_pos hm]
    exact Or.inr rfl
  · rw [if_neg hm]
    exact Or.inl rfl

/-- C10: within one ingestion request the baseline is drawn entirely
from records already in the store before the request — every baseline
vector is the vector of a pre-existing record, the score (when present)
is the cosine of the candidate against the centroid of that pre-request
baseline, and the candidate's own record is only appended afterwards (at
the end of the store). -/
theorem collectEvent_baseline_prior_only (cfg : Config) (env : Env n)
    (store : List (Point n)) (ev : InEvent) (vec : Vec n) (resp : CollectResp)
    (hemb : env.embed (toSummaryText env ev) = some vec)
    (hok : (collectEvent cfg env store ev).1 = Except.ok resp) :
    (∀ v ∈ baselineVecs cfg env store (eidOf ev),
      ∃ p, p ∈ store ∧ p.vector = v) ∧
    (resp.score = none ∨
      resp.score =
        some (cosine vec (centroid (baselineVecs cfg env store (eidOf ev))))) ∧
    ((collectEvent cfg env store ev).2 = store ∨
      (collectEvent cfg env store ev).2 =
        store ++ [⟨env.freshId, vec, eidOf ev, some (tsEpochOf env ev),
                  tsOf env ev, resp.score, resp.flagged⟩]) := by
  have hsub : ∀ v ∈ baselineVecs cfg env store (eidOf ev),
      ∃ p, p ∈ store ∧ p.vector = v := by
    intro v hv
    obtain ⟨p, hp, hpv⟩ := List.mem_map.mp hv
    exact ⟨p, baselinePts_subset cfg env store (eidOf ev) p hp, hpv⟩
  by_cases heid : eidOf ev = ""
  · rw [collectEvent, if_pos heid] at hok
    exact absurd hok (by simp)
  · by_cases hsa : env.storeAvailable
    · by_cases hup : env.upsertOk
      · have hrun : collectEvent cfg env store ev =
            (Except.ok ⟨true,
              (scoreFlag cfg (baselineVecs cfg env store (eidOf ev))
                (baselineDaySet cfg env store (eidOf ev)).card vec).2,
              (scoreFlag cfg (baselineVecs cfg env store (eidOf ev))
                (baselineDaySet cfg env store (eidOf ev)).card vec).1, true⟩,
             store ++ [⟨env.freshId, vec, eidOf ev, some (tsEpochOf env ev),
                       tsOf env ev,
                       (scoreFlag cfg (baselineVecs cfg env store (eidOf ev))
                         (baselineDaySet cfg env store (eidOf ev)).card vec).1,
                       (scoreFlag cfg (baselineVecs cfg env store (eidOf ev))
                         (baselineDaySet cfg env store (eidOf ev)).card vec).2⟩]) := by
          rw [collectEvent, if_neg heid, hemb]
          simp only [hsa, hup, if_true]
        rw [hrun] at hok
        obtain rfl := (Except.ok.inj hok).symm
        refine ⟨hsub, ?_, Or.inr ?_⟩
        · exact scoreFlag_score_cases cfg _ _ _
        · rw [hrun]
      · have hrun : collectEvent cfg env store ev =
            (Except.error HErr.exception, store) := by
          rw [collectEvent, if_neg heid, hemb]
          simp only [hsa, hup, Bool.false_eq_true, if_true, if_false]
        rw [hrun] at hok
        exact absurd hok (by simp)
    · have hrun : collectEvent cfg env store ev =
          (Except.ok ⟨true, false, none, false⟩, store) := by
        rw [collectEvent, if_neg heid, hemb]
        simp only [hsa, Bool.false_eq_true, if_false]
      rw [hrun] at hok
      obtain rfl := (Except.ok.inj hok).symm
      refine ⟨hsub, Or.inl rfl, Or.inl ?_⟩
      rw [hrun]

/-- Witness for C10 at the healthy concrete run on an empty store. -/
theorem collectEvent_baseline_prior_only_witness :
    envW.embed (toSummaryText envW evE1) = some vOne ∧
    (collectEvent cfgW envW [] evE1).1 =
      Except.ok ⟨true, false, none, true⟩ ∧
    (∀ v ∈ baselineVecs cfgW envW [] (eidOf evE1),
      ∃ p, p ∈ ([] : List (Point 1)) ∧ p.vector = v) :=
  ⟨rfl, rfl,
   (collectEvent_baseline_prior_only cfgW envW [] evE1 vOne
     ⟨true, false, none, true⟩ rfl rfl).1⟩

/-! ## Access decision service (C3) -/

theorem checkLoop_eq_find (cfg : Config) (eid : String) (l : List (Point n)) :
    checkLoop cfg eid l =
      match l.find? (fun p => p.score.isSome) with
      | none => ⟨eid, true, none, none, some "no recent score"⟩
      | some p =>
          ⟨eid, if cfg.threshold ≤ p.score.getD 0 then true else false,
           p.score, some cfg.threshold, none⟩ := by
  induction l with
  | nil => rfl
  | cons p rest ih =>
    cases hs : p.score with
    | none =>
      rw [List.find?_cons_of_neg rest (by simp [hs])]
      rw [checkLoop, hs]
      exact ih
    | some s =>
      rw [List.find?_cons_of_pos rest (by simp [hs])]
      rw [checkLoop, hs]
      simp only [hs, Option.getD_some]

/-- C3: `check_access` sorts the identity's records of the 2-day window
newest-first (a stable descending sort by `ts_iso`; the sorted list is a
permutation of the fetched window), answers from the first record
carrying a non-null score with `allow ⟺ score ≥ THRESHOLD`, and when no
scored record exists in the window it fails open with `allow = true` and
the distinguishing `"no recent score"` reason annotation. -/
theorem checkAccess_spec (cfg : Config) (env : Env n)
    (store : List (Point n)) (eid : String) :
    (sortByTsDesc (getEmployeeVectors env store eid 2)).Perm
      (getEmployeeVectors env store eid 2) ∧
    (sortByTsDesc (getEmployeeVectors env store eid 2)).Pairwise
      (fun a b => b.ts_iso ≤ a.ts_iso) ∧
    ((∀ p ∈ getEmployeeVectors env store eid 2, p.score = none) →
      checkAccess cfg env store eid =
        ⟨eid, true, none, none, some "no recent score"⟩) ∧
    (∀ p s,
      (sortByTsDesc (getEmployeeVectors env store eid 2)).find?
          (fun q => q.score.isSome) = some p →
      p.score = some s →
      checkAccess cfg env store eid =
        ⟨eid, if cfg.threshold ≤ s then true else false, some s,
         some cfg.threshold, none⟩ ∧
      ((checkAccess cfg env store eid).allow = true ↔ cfg.threshold ≤ s)) := by
  haveI htot : IsTotal (Point n) (fun a b => b.ts_iso ≤ a.ts_iso) :=
    ⟨fun a b => le_total b.ts_iso a.ts_iso⟩
  haveI htr : IsTrans (Point n) (fun a b => b.ts_iso ≤ a.ts_iso) :=
    ⟨fun _ _ _ hab hbc => le_trans hbc hab⟩
  refine ⟨List.perm_insertionSort _ _, List.sorted_insertionSort _ _,
    fun hall => ?_, fun p s hfind hs => ?_⟩
  · have hnone : (sortByTsDesc (getEmployeeVectors env store eid 2)).find?
        (fun q => q.score.isSome) = none := by
      rw [List.find?_eq_none]
      intro x hx
      have hx' : x ∈ getEmployeeVectors env store eid 2 := by
        rw [sortByTsDesc] at hx
        exact (List.mem_insertionSort _).mp hx
      simp [hall x hx']
    rw [checkAccess, checkLoop_eq_find, hnone]
  · constructor
    · rw [checkAccess, checkLoop_eq_find, hfind]
      simp only [hs, Option.getD_some]
    · rw [checkAccess, checkLoop_eq_find, hfind]
      simp only [hs, Option.getD_some]
      by_cases ht : cfg.threshold ≤ s
      · simp [ht]
      · simp [ht]

/-- A concrete scored record inside the 2-day recency window. -/
noncomputable def ptScored : Point 1 :=
  ⟨"p1", vOne, "E1", some 0, "2026-01-01T00:00:00+00:00", some (9 / 10), false⟩

/-- Witness for C3: on a store holding the single scored record
`ptScored`, `check_access` answers from that record, and on the empty
store it fails open with the annotation. -/
theorem checkAccess_spec_witness :
    ((sortByTsDesc (getEmployeeVectors envW [ptScored] "E1" 2)).find?
        (fun q => q.score.isSome) = some ptScored ∧
      ptScored.score = some (9 / 10) ∧
      checkAccess cfgW envW [ptScored] "E1" =
        ⟨"E1", if cfgW.threshold ≤ (9 / 10 : ℝ) then true else false,
         some (9 / 10), some cfgW.threshold, none⟩ ∧
      ((checkAccess cfgW envW [ptScored] "E1").allow = true ↔
        cfgW.threshold ≤ (9 / 10 : ℝ))) ∧
    ((∀ p ∈ getEmployeeVectors envW ([] : List (Point 1)) "E1" 2,
        p.score = none) ∧
      checkAccess cfgW envW [] "E1" =
        ⟨"E1", true, none, none, some "no recent score"⟩) := by
  constructor
  · refine ⟨rfl, rfl, ?_⟩
    exact (checkAccess_spec cfgW envW [ptScored] "E1").2.2.2 ptScored (9 / 10)
      rfl rfl
  · refine ⟨by simp [getEmployeeVectors], ?_⟩
    exact (checkAccess_spec cfgW envW [] "E1").2.2.1 (by simp [getEmployeeVectors])

/-! ## Runtime configuration update (C9)

`settings_save` mutates the two module globals in sequence:
`THRESHOLD = max(0.0, min(1.0, ...))` and then
`BASELINE_DAYS = max(1, ...)`.  There is no snapshot object: a reader
interleaved with an update can read the two globals from two different
intermediate states.  The update is modelled as its list of two
field-assignment steps over the shared state, and a reader by the pair
of step indices after which it reads each global; Python/CPython makes
each single assignment and single read atomic, which the step semantics
reflects. -/

/-- The two shared module globals. -/
structure Settings where
  threshold : ℚ
  baselineDays : ℤ

/-- `max(0.0, min(1.0, t))` from `settings_save`. -/
def clampThreshold (t : ℚ) : ℚ := max 0 (min 1 t)

/-- `max(1, b)` from `settings_save`. -/
def clampBaselineDays (b : ℤ) : ℤ := max 1 b

/-- `settings_save` as its sequence of global assignments: first the
threshold, then the baseline days. -/
def saveSteps (t : ℚ) (b : ℤ) : List (Settings → Settings) :=
  [fun s => ⟨clampThreshold t, s.baselineDays⟩,
   fun s => ⟨s.threshold, clampBaselineDays b⟩]

/-- The shared state after the writer has executed its first `k` steps. -/
def stateAfter (init : Settings) (steps : List (Settings → Settings))
    (k : ℕ) : Settings :=
  (steps.take k).foldl (fun s f => f s) init

/-- What a concurrent reader observes when it reads `THRESHOLD` after
`i` writer steps and `BASELINE_DAYS` after `j` writer steps. -/
def observedPair (init : Settings) (t : ℚ) (b : ℤ) (i j : ℕ) : ℚ × ℤ :=
  ((stateAfter init (saveSteps t b) i).threshold,
   (stateAfter init (saveSteps t b) j).baselineDays)

/-- The consistent snapshot of the state after `k` writer steps. -/
def snapshotPair (init : Settings) (t : ℚ) (b : ℤ) (k : ℕ) : ℚ × ℤ :=
  ((stateAfter init (saveSteps t b) k).threshold,
   (stateAfter init (saveSteps t b) k).baselineDays)

/-- C9 counterexample: starting from `THRESHOLD = 0, BASELINE_DAYS = 1`
and saving `threshold = 1, baseline_days = 2`, a reader that reads the
threshold before the update and the baseline days after it observes
`(0, 2)` — a pair that matches no state the configuration ever passes
through, so the configuration is not read as a single atomically-replaced
snapshot. -/
theorem settings_mixed_observation_counterexample :
    observedPair ⟨0, 1⟩ 1 2 0 2 ∉
      (List.range 3).map (snapshotPair ⟨0, 1⟩ 1 2) := by decide

theorem stateAfter_stable (init : Settings) (t : ℚ) (b : ℤ) (k : ℕ) :
    stateAfter init (saveSteps t b) k =
      stateAfter init (saveSteps t b) (min k 2) := by
  rcases le_or_lt k 2 with hk | hk
  · rw [min_eq_left hk]
  · rw [min_eq_right hk.le, stateAfter, stateAfter,
      List.take_of_length_le (by simp [saveSteps]; omega),
      List.take_of_length_le (by simp [saveSteps])]

/-- C9 amended: the two settings are separate mutable globals updated
one assignment at a time, not one snapshot.  What does hold: each
individual read returns a value some reachable state actually held
(per-field atomicity — reads are never torn), a reader whose two reads
are not separated by writer steps sees one consistent state, the
completed update holds exactly the clamped values, and the clamps keep
the threshold in `[0, 1]` and the baseline days at least `1`.  Whole-pair
snapshot consistency fails, per the counterexample. -/
theorem settings_per_field_spec (init : Settings) (t : ℚ) (b : ℤ)
    (i j : ℕ) :
    ((stateAfter init (saveSteps t b) i).threshold ∈
      (List.range 3).map (fun k => (stateAfter init (saveSteps t b) k).threshold)) ∧
    ((stateAfter init (saveSteps t b) j).baselineDays ∈
      (List.range 3).map (fun k => (stateAfter init (saveSteps t b) k).baselineDays)) ∧
    observedPair init t b i i = snapshotPair init t b i ∧
    stateAfter init (saveSteps t b) 2 = ⟨clampThreshold t, clampBaselineDays b⟩ ∧
    0 ≤ clampThreshold t ∧ clampThreshold t ≤ 1 ∧ 1 ≤ clampBaselineDays b := by
  refine ⟨?_, ?_, rfl, rfl, le_max_left 0 _,
    max_le (by norm_num) (min_le_left 1 t), le_max_left 1 b⟩
  · exact List.mem_map.mpr ⟨min i 2, List.mem_range.mpr (by omega),
      (congrArg Settings.threshold (stateAfter_stable init t b i)).symm⟩
  · exact List.mem_map.mpr ⟨min j 2, List.mem_range.mpr (by omega),
      (congrArg Settings.baselineDays (stateAfter_stable init t b j)).symm⟩

end SmartAccess
